import Mathlib

/-!
Verification of the yabgp attribute/TLV decoding engine.

Byte buffers are modelled as `List Nat` (each element a byte value 0-255;
bounds are carried as hypotheses where a property needs them). Decoders that
can raise Python runtime exceptions are modelled as functions into
`Except PyErr`, with `PyErr` distinguishing the two exception kinds the
decoders can raise: `IndexError` from indexing past the end of a bytes
object, and `struct.error` from `struct.unpack` applied to a buffer whose
size differs from the format size, or `struct.pack` applied to an
out-of-range integer.
-/

/-- Python runtime failure kinds raised by the decoders. -/
inductive PyErr where
  | indexError : PyErr
  | structError : PyErr
deriving DecidableEq

deriving instance DecidableEq for Except

/-- Big-endian value of a byte list. -/
def beNat (bs : List Nat) : Nat :=
  List.foldl (fun acc b => 256 * acc + b) 0 bs

/-- Reads `data[i]` on a Python bytes object: fails with `IndexError` past the end. -/
def pyIndex (data : List Nat) (i : Nat) : Except PyErr Nat :=
  match data[i]? with
  | some b => Except.ok b
  | none => Except.error PyErr.indexError

/-- Models `struct.unpack` with format `!H` (exactly 2 bytes, big-endian u16). -/
def structUnpackH (bs : List Nat) : Except PyErr Nat :=
  match bs with
  | [a, b] => Except.ok (256 * a + b)
  | _ => Except.error PyErr.structError

/-- Models `struct.unpack` with format `!HH` (exactly 4 bytes, two big-endian u16). -/
def structUnpackHH (bs : List Nat) : Except PyErr (Nat × Nat) :=
  match bs with
  | [a, b, c, d] => Except.ok (256 * a + b, 256 * c + d)
  | _ => Except.error PyErr.structError

/-- Models `struct.unpack` with format `!I` (exactly 4 bytes, big-endian u32). -/
def structUnpackI (bs : List Nat) : Except PyErr Nat :=
  match bs with
  | [a, b, c, d] => Except.ok (256 * (256 * (256 * a + b) + c) + d)
  | _ => Except.error PyErr.structError

/-- Models `struct.unpack` with format `!Q` (exactly 8 bytes, big-endian u64). -/
def structUnpackQ (bs : List Nat) : Except PyErr Nat :=
  match bs with
  | [a, b, c, d, e, f, g, h] =>
    Except.ok (beNat [a, b, c, d, e, f, g, h])
  | _ => Except.error PyErr.structError

/-- Models `struct.unpack` with format `!BBBB` (exactly 4 bytes, four u8). -/
def structUnpackBBBB (bs : List Nat) : Except PyErr (Nat × Nat × Nat × Nat) :=
  match bs with
  | [a, b, c, d] => Except.ok (a, b, c, d)
  | _ => Except.error PyErr.structError

/-- Lower-case hex digit character for a value below 16. -/
def hexDigitChar (n : Nat) : Char :=
  if n < 10 then Char.ofNat (48 + n) else Char.ofNat (87 + n)

/-- Fuel-driven worker for `hexDigits`: the fuel only bounds the recursion
depth (one division by 16 per step, so any fuel at least `n` is enough) and
never affects the value on sufficient fuel; see `hexDigitsGo_congr`. -/
def hexDigitsGo : Nat → Nat → List Char
  | 0, n => [hexDigitChar (n % 16)]
  | fuel + 1, n =>
    if n < 16 then [hexDigitChar n]
    else hexDigitsGo fuel (n / 16) ++ [hexDigitChar (n % 16)]

/-- Lower-case hex digit list of a natural number, no leading zeros (a single
digit for values below 16), as produced by the Python format spec `x`. -/
def hexDigits (n : Nat) : List Char :=
  hexDigitsGo n n

theorem hexDigitsGo_congr : ∀ f₁ f₂ n : Nat, n ≤ f₁ → n ≤ f₂ →
    hexDigitsGo f₁ n = hexDigitsGo f₂ n := by
  intro f₁
  induction f₁ using Nat.strong_induction_on with
  | _ f₁ ih =>
    intro f₂ n h₁ h₂
    match f₁, f₂ with
    | 0, f₂ =>
      interval_cases n
      match f₂ with
      | 0 => rfl
      | f₂ + 1 => simp [hexDigitsGo]
    | f₁ + 1, 0 =>
      interval_cases n
      simp [hexDigitsGo]
    | f₁ + 1, f₂ + 1 =>
      by_cases hn : n < 16
      · simp [hexDigitsGo, hn]
      · have hrec : n / 16 ≤ f₁ := by omega
        have hrec₂ : n / 16 ≤ f₂ := by
          have := Nat.div_le_self n 16
          omega
        simp only [hexDigitsGo, hn, if_false]
        rw [ih f₁ (by omega) f₂ (n / 16) hrec hrec₂]

/-- Unfolding equation for `hexDigits` in the shape of the mathematical
recursion. -/
theorem hexDigits_eq (n : Nat) :
    hexDigits n =
      if n < 16 then [hexDigitChar n]
      else hexDigits (n / 16) ++ [hexDigitChar (n % 16)] := by
  by_cases hn : n < 16
  · have : n ≤ n := le_refl n
    unfold hexDigits
    match n, hn with
    | 0, _ => simp [hexDigitsGo]
    | (m + 1), hn => simp [hexDigitsGo, hn]
  · unfold hexDigits
    match n, hn with
    | (m + 1), hn =>
      simp only [hexDigitsGo, if_neg hn]
      congr 1
      exact hexDigitsGo_congr m ((m + 1) / 16) ((m + 1) / 16)
        (by omega) (le_refl _)

/-- Lower-case hex representation of a natural number as a string. -/
def hexRepr (n : Nat) : String :=
  String.mk (hexDigits n)

/-- Two lower-case hex digits of one byte, as `binascii.b2a_hex` renders it. -/
def byteHex (b : Nat) : String :=
  String.mk [hexDigitChar (b / 16 % 16), hexDigitChar (b % 16)]

/-- Models `binascii.b2a_hex(bs).decode('ascii')`: the lower-case hex dump of a
byte list. -/
def bytesHex (bs : List Nat) : String :=
  String.join (bs.map byteHex)

/-- Left-pads a string with zero characters to width `w`, as the Python format
spec `0Nx` does for the digits part. -/
def padZeros (w : Nat) (s : String) : String :=
  String.mk (List.replicate (w - s.length) (Char.ofNat 48)) ++ s

/-- Models the Python format string `0x` followed by `0{w}x` applied to `n`:
a `0x` prefix and the hex digits of `n` zero-padded to width `w`. -/
def format0x (w : Nat) (n : Nat) : String :=
  "0x" ++ padZeros w (hexRepr n)

/-- A single-quote character as a string. -/
def squote : String :=
  String.mk [Char.ofNat 39]

/-- Models the Python 3 expression `str(b)` applied to a bytes object whose
ascii rendering is `s`: it yields the bytes-literal form, `s` wrapped in
`b` and single quotes. -/
def pyBytesStr (s : String) : String :=
  "b" ++ squote ++ s ++ squote

example : bytesHex [222, 173, 190, 239] = "deadbeef" := by decide
example : format0x 8 (beNat [16, 0, 0, 0]) = "0x10000000" := by decide
example : structUnpackH [255, 255] = Except.ok 65535 := by decide

/-!
Semantic output model. A decoded sub-TLV inside a container is either the
semantic mapping of a registered implementation tagged with its display name
(the result of `.unpack(value).dict()` in the source), or the fallback record
for an unregistered type code, carrying the numeric type code and the Python
`str` of the `binascii.b2a_hex` bytes object of the raw value.
-/

/-- Semantic value shapes produced by the leaf decoders in this file. -/
inductive LsVal where
  | ints : List Nat → LsVal
  | mflag : Nat → LsVal
deriving DecidableEq

/-- One entry of a decoded sub-TLV sequence. -/
inductive TlvDict where
  | tagged : String → LsVal → TlvDict
  | fallback : Nat → String → TlvDict
deriving DecidableEq

/-- The process-wide TLV registry `LinkState.registered_tlvs`, abstracted as a
partial map from a numeric type code to a decoder returning the semantic
mapping (the composite of the registered implementation with `.dict()`).
Container decoders are parametrized by it. -/
def Registry : Type :=
  Nat → Option (List Nat → Except PyErr TlvDict)

namespace MultiTopologyIdentifier

def TYPE : Nat := 263

def TYPE_STR : String := "mt_id"

/-- Decode loop of `MultiTopologyIdentifier.unpack`: while data remains, read
`struct.unpack` format `!H` on the first two bytes and drop them. A trailing
single byte makes the 2-byte read fail with `struct.error`. -/
def unpack : List Nat → Except PyErr (List Nat)
  | [] => Except.ok []
  | [_] => Except.error PyErr.structError
  | a :: b :: rest => (unpack rest).map (fun l => (256 * a + b) :: l)

end MultiTopologyIdentifier

namespace FlexAlgoExcludeAdminGroup

def TYPE : Nat := 1040

def TYPE_STR : String := "flex_algo_excl_admin_group"

/-- Decode loop of `FlexAlgoExcludeAdminGroup.unpack`: one `struct.unpack`
format `!I` read per 4-byte chunk of the buffer, stepping by 4; a trailing
chunk of 1-3 bytes makes the 4-byte read fail with `struct.error`. -/
def unpack : List Nat → Except PyErr (List Nat)
  | [] => Except.ok []
  | a :: b :: c :: d :: rest =>
    (unpack rest).map (fun l => (256 * (256 * (256 * a + b) + c) + d) :: l)
  | _ => Except.error PyErr.structError

end FlexAlgoExcludeAdminGroup

namespace FlexAlgoIncludeAnyAdminGroup

def TYPE : Nat := 1041

def TYPE_STR : String := "flex_algo_incl_any_admin_group"

/-- Decode loop of `FlexAlgoIncludeAnyAdminGroup.unpack`: one `struct.unpack`
format `!I` read per 4-byte chunk of the buffer, stepping by 4; a trailing
chunk of 1-3 bytes makes the 4-byte read fail with `struct.error`. -/
def unpack : List Nat → Except PyErr (List Nat)
  | [] => Except.ok []
  | a :: b :: c :: d :: rest =>
    (unpack rest).map (fun l => (256 * (256 * (256 * a + b) + c) + d) :: l)
  | _ => Except.error PyErr.structError

end FlexAlgoIncludeAnyAdminGroup

namespace FlexAlgoIncludeAllAdminGroup

def TYPE : Nat := 1042

def TYPE_STR : String := "flex_algo_incl_all_admin_group"

/-- Decode loop of `FlexAlgoIncludeAllAdminGroup.unpack`: one `struct.unpack`
format `!I` read per 4-byte chunk of the buffer, stepping by 4; a trailing
chunk of 1-3 bytes makes the 4-byte read fail with `struct.error`. -/
def unpack : List Nat → Except PyErr (List Nat)
  | [] => Except.ok []
  | a :: b :: c :: d :: rest =>
    (unpack rest).map (fun l => (256 * (256 * (256 * a + b) + c) + d) :: l)
  | _ => Except.error PyErr.structError

end FlexAlgoIncludeAllAdminGroup

namespace FlexAlgoExcludeSRLG

def TYPE : Nat := 1044

def TYPE_STR : String := "flex_algo_excl_srlg"

/-- Decode loop of `FlexAlgoExcludeSRLG.unpack`: one `struct.unpack` format
`!I` read per 4-byte chunk of the buffer, stepping by 4; a trailing chunk of
1-3 bytes makes the 4-byte read fail with `struct.error`. -/
def unpack : List Nat → Except PyErr (List Nat)
  | [] => Except.ok []
  | a :: b :: c :: d :: rest =>
    (unpack rest).map (fun l => (256 * (256 * (256 * a + b) + c) + d) :: l)
  | _ => Except.error PyErr.structError

end FlexAlgoExcludeSRLG

namespace FlexAlgoDefinitionFlags

def TYPE : Nat := 1043

def TYPE_STR : String := "flex_algo_defn_flags"

/-- Body of `FlexAlgoDefinitionFlags.unpack`: `struct.unpack` format `!H` on
the first two bytes, then the M flag is the value shifted right by 15; the 15
reserved bits and all bytes beyond the first two are ignored. -/
def unpack (data : List Nat) : Except PyErr Nat := do
  let flags ← structUnpackH (data.take 2)
  Except.ok (flags >>> 15)

end FlexAlgoDefinitionFlags

example : MultiTopologyIdentifier.unpack [255, 255] = Except.ok [65535] := by decide
example : FlexAlgoExcludeSRLG.unpack [0, 0, 0, 100, 0, 0, 1, 44, 0, 0, 1, 244]
    = Except.ok [100, 300, 500] := by decide
example : FlexAlgoDefinitionFlags.unpack [128, 0] = Except.ok 1 := by decide
example : FlexAlgoDefinitionFlags.unpack [0, 0, 7] = Except.ok 0 := by decide

/-!
Sub-TLV walk. Both containers (`AppSpecLinkAttr.unpack` and
`FlexAlgorithmDefine.unpack`) contain a textually identical loop: while bytes
remain, `struct.unpack` format `!HH` on the first four bytes gives the type
code and declared length, the value is the slice of `length` bytes after the
header (silently shorter when the buffer runs out, as Python slicing
truncates), the type is dispatched through the registry with the hex fallback
for unregistered codes, and the cursor advances by `4 + length`.

The loop is defined through a fuel-driven worker so that it is structurally
recursive and kernel-computable; each iteration consumes at least one byte,
so a fuel equal to the buffer length always suffices, and the theorems
`aslaSubTlvWalk_nil` / `aslaSubTlvWalk_cons` (and the `fad` twins) recover
exactly the source-shaped recursion, independent of the fuel plumbing.
-/

/-- One dispatch step of the walk: a registered type code runs its decoder on
the value slice, an unregistered one yields the fallback record. -/
def dispatchStep (reg : Registry) (t : Nat) (v : List Nat) : Except PyErr TlvDict :=
  match reg t with
  | some dec => dec v
  | none => Except.ok (TlvDict.fallback t (pyBytesStr (bytesHex v)))

/-- Fuel-driven worker for the sub-TLV loop of `AppSpecLinkAttr.unpack`. -/
def aslaSubTlvWalkGo (reg : Registry) : Nat → List Nat → Except PyErr (List TlvDict)
  | _, [] => Except.ok []
  | 0, _ :: _ => Except.ok []
  | fuel + 1, x :: xs => do
    let (t, l) ← structUnpackHH ((x :: xs).take 4)
    let v := ((x :: xs).drop 4).take l
    let item ← dispatchStep reg t v
    let rest ← aslaSubTlvWalkGo reg fuel ((x :: xs).drop (4 + l))
    Except.ok (item :: rest)

/-- Sub-TLV loop of `AppSpecLinkAttr.unpack` over the remaining buffer. -/
def aslaSubTlvWalk (reg : Registry) (data : List Nat) : Except PyErr (List TlvDict) :=
  aslaSubTlvWalkGo reg data.length data

/-- Fuel-driven worker for the sub-TLV loop of `FlexAlgorithmDefine.unpack`. -/
def fadSubTlvWalkGo (reg : Registry) : Nat → List Nat → Except PyErr (List TlvDict)
  | _, [] => Except.ok []
  | 0, _ :: _ => Except.ok []
  | fuel + 1, x :: xs => do
    let (t, l) ← structUnpackHH ((x :: xs).take 4)
    let v := ((x :: xs).drop 4).take l
    let item ← dispatchStep reg t v
    let rest ← fadSubTlvWalkGo reg fuel ((x :: xs).drop (4 + l))
    Except.ok (item :: rest)

/-- Sub-TLV loop of `FlexAlgorithmDefine.unpack` over the remaining buffer. -/
def fadSubTlvWalk (reg : Registry) (data : List Nat) : Except PyErr (List TlvDict) :=
  fadSubTlvWalkGo reg data.length data

theorem aslaSubTlvWalkGo_congr (reg : Registry) :
    ∀ f₁ f₂ data, data.length ≤ f₁ → data.length ≤ f₂ →
      aslaSubTlvWalkGo reg f₁ data = aslaSubTlvWalkGo reg f₂ data := by
  intro f₁
  induction f₁ using Nat.strong_induction_on with
  | _ f₁ ih =>
    intro f₂ data h₁ h₂
    match f₁, f₂, data with
    | _, _, [] => simp [aslaSubTlvWalkGo]
    | 0, _, x :: xs => simp at h₁
    | f₁ + 1, 0, x :: xs => simp at h₂
    | f₁ + 1, f₂ + 1, x :: xs =>
      simp only [aslaSubTlvWalkGo]
      have hlen : ∀ l : Nat, ((x :: xs).drop (4 + l)).length ≤ f₁ ∧
          ((x :: xs).drop (4 + l)).length ≤ f₂ := by
        intro l
        simp only [List.length_drop, List.length_cons] at *
        omega
      rcases hH : structUnpackHH ((x :: xs).take 4) with e | tl
      · rfl
      · simp only [Except.instMonad, Except.bind]
        rcases hD : dispatchStep reg tl.1 (((x :: xs).drop 4).take tl.2) with e | item
        · rfl
        · simp only [Except.instMonad, Except.bind]
          rw [ih f₁ (by omega) f₂ ((x :: xs).drop (4 + tl.2))
            (hlen tl.2).1 (hlen tl.2).2]

theorem fadSubTlvWalkGo_congr (reg : Registry) :
    ∀ f₁ f₂ data, data.length ≤ f₁ → data.length ≤ f₂ →
      fadSubTlvWalkGo reg f₁ data = fadSubTlvWalkGo reg f₂ data := by
  intro f₁
  induction f₁ using Nat.strong_induction_on with
  | _ f₁ ih =>
    intro f₂ data h₁ h₂
    match f₁, f₂, data with
    | _, _, [] => simp [fadSubTlvWalkGo]
    | 0, _, x :: xs => simp at h₁
    | f₁ + 1, 0, x :: xs => simp at h₂
    | f₁ + 1, f₂ + 1, x :: xs =>
      simp only [fadSubTlvWalkGo]
      have hlen : ∀ l : Nat, ((x :: xs).drop (4 + l)).length ≤ f₁ ∧
          ((x :: xs).drop (4 + l)).length ≤ f₂ := by
        intro l
        simp only [List.length_drop, List.length_cons] at *
        omega
      rcases hH : structUnpackHH ((x :: xs).take 4) with e | tl
      · rfl
      · simp only [Except.instMonad, Except.bind]
        rcases hD : dispatchStep reg tl.1 (((x :: xs).drop 4).take tl.2) with e | item
        · rfl
        · simp only [Except.instMonad, Except.bind]
          rw [ih f₁ (by omega) f₂ ((x :: xs).drop (4 + tl.2))
            (hlen tl.2).1 (hlen tl.2).2]

/-- The walk maps the empty remainder to the empty sub-TLV sequence. -/
theorem aslaSubTlvWalk_nil (reg : Registry) : aslaSubTlvWalk reg [] = Except.ok [] := rfl

/-- Source-shaped unfolding of one iteration of the ASLA sub-TLV loop. -/
theorem aslaSubTlvWalk_cons (reg : Registry) (x : Nat) (xs : List Nat) :
    aslaSubTlvWalk reg (x :: xs) = (do
      let (t, l) ← structUnpackHH ((x :: xs).take 4)
      let v := ((x :: xs).drop 4).take l
      let item ← dispatchStep reg t v
      let rest ← aslaSubTlvWalk reg ((x :: xs).drop (4 + l))
      Except.ok (item :: rest)) := by
  show aslaSubTlvWalkGo reg (xs.length + 1) (x :: xs) = _
  simp only [aslaSubTlvWalkGo]
  rcases hH : structUnpackHH ((x :: xs).take 4) with e | tl
  · rfl
  · simp only [Except.instMonad, Except.bind]
    rcases hD : dispatchStep reg tl.1 (((x :: xs).drop 4).take tl.2) with e | item
    · rfl
    · simp only [Except.instMonad, Except.bind]
      rw [show aslaSubTlvWalk reg ((x :: xs).drop (4 + tl.2))
          = aslaSubTlvWalkGo reg xs.length ((x :: xs).drop (4 + tl.2)) from
        aslaSubTlvWalkGo_congr reg ((x :: xs).drop (4 + tl.2)).length xs.length
          ((x :: xs).drop (4 + tl.2)) (le_refl _)
          (by simp only [List.length_drop, List.length_cons]; omega)]

/-- The walk maps the empty remainder to the empty sub-TLV sequence. -/
theorem fadSubTlvWalk_nil (reg : Registry) : fadSubTlvWalk reg [] = Except.ok [] := rfl

/-- Source-shaped unfolding of one iteration of the FAD sub-TLV loop. -/
theorem fadSubTlvWalk_cons (reg : Registry) (x : Nat) (xs : List Nat) :
    fadSubTlvWalk reg (x :: xs) = (do
      let (t, l) ← structUnpackHH ((x :: xs).take 4)
      let v := ((x :: xs).drop 4).take l
      let item ← dispatchStep reg t v
      let rest ← fadSubTlvWalk reg ((x :: xs).drop (4 + l))
      Except.ok (item :: rest)) := by
  show fadSubTlvWalkGo reg (xs.length + 1) (x :: xs) = _
  simp only [fadSubTlvWalkGo]
  rcases hH : structUnpackHH ((x :: xs).take 4) with e | tl
  · rfl
  · simp only [Except.instMonad, Except.bind]
    rcases hD : dispatchStep reg tl.1 (((x :: xs).drop 4).take tl.2) with e | item
    · rfl
    · simp only [Except.instMonad, Except.bind]
      rw [show fadSubTlvWalk reg ((x :: xs).drop (4 + tl.2))
          = fadSubTlvWalkGo reg xs.length ((x :: xs).drop (4 + tl.2)) from
        fadSubTlvWalkGo_congr reg ((x :: xs).drop (4 + tl.2)).length xs.length
          ((x :: xs).drop (4 + tl.2)) (le_refl _)
          (by simp only [List.length_drop, List.length_cons]; omega)]

/-- Decoded value of the Application-Specific Link Attributes TLV, the mapping
with keys sabm (len, value), udabm (len, value) and sub_tlvs returned by
`AppSpecLinkAttr.unpack`. -/
structure ASLAValue where
  sabm_len : Nat
  sabm : Option String
  udabm_len : Nat
  udabm : Option String
  sub_tlvs : List TlvDict
deriving DecidableEq

namespace AppSpecLinkAttr

def TYPE : Nat := 1122

def TYPE_STR : String := "ASLA"

/-- One mask block of `AppSpecLinkAttr.unpack`: for a positive declared
length, render the sliced mask bytes as a fixed-width zero-padded hex string
through `struct.unpack` format `!I` at declared length 4 and format `!Q` at
declared length 8, and as a plain hex dump of the sliced bytes at any other
positive length; a zero declared length leaves the mask null. The byte slice
is passed in already cut, exactly as the source cuts `sabm_bytes` and
`udabm_bytes` with Python slicing (which silently truncates). -/
def parseMask (len : Nat) (maskBytes : List Nat) : Except PyErr (Option String) :=
  if len > 0 then
    if len = 4 then
      (structUnpackI maskBytes).map (fun n => some (format0x 8 n))
    else if len = 8 then
      (structUnpackQ maskBytes).map (fun n => some (format0x 16 n))
    else
      Except.ok (some ("0x" ++ bytesHex maskBytes))
  else Except.ok none

/-- Body of `AppSpecLinkAttr.unpack`: reads `sabm_len` and `udabm_len` at
offsets 0 and 1 (the 2 reserved bytes at offsets 2-3 are commented out in the
source and never read), slices and renders each mask at its offset through
`parseMask`, then walks the remaining bytes as sub-TLVs. The offset advance
by `sabm_len` and `udabm_len` happens only inside the positive branches in
the source, but adding zero is the identity, so the slices below are
unconditional. -/
def unpack (reg : Registry) (data : List Nat) : Except PyErr ASLAValue := do
  let sabm_len ← pyIndex data 0
  let udabm_len ← pyIndex data 1
  let sabm ← parseMask sabm_len ((data.drop 4).take sabm_len)
  let udabm ← parseMask udabm_len ((data.drop (4 + sabm_len)).take udabm_len)
  let sub_tlvs ← aslaSubTlvWalk reg (data.drop (4 + sabm_len + udabm_len))
  Except.ok ⟨sabm_len, sabm, udabm_len, udabm, sub_tlvs⟩

end AppSpecLinkAttr

/-- Decoded value of the Flex Algorithm Definition TLV: the four fixed scalar
fields plus the nested sub-TLV sequence returned by
`FlexAlgorithmDefine.unpack`. -/
structure FADValue where
  flex_algo : Nat
  metric_type : Nat
  calc_type : Nat
  priority : Nat
  sub_tlvs : List TlvDict
deriving DecidableEq

namespace FlexAlgorithmDefine

def TYPE : Nat := 1039

def TYPE_STR : String := "flex_algo_defn"

/-- Body of `FlexAlgorithmDefine.unpack`: `struct.unpack` format `!BBBB` on
the first four bytes gives the four fixed fields, and the remaining bytes are
walked as sub-TLVs. -/
def unpack (reg : Registry) (data : List Nat) : Except PyErr FADValue := do
  let (flex_algo, metric_type, calc_type, priority) ← structUnpackBBBB (data.take 4)
  let sub_tlvs ← fadSubTlvWalk reg (data.drop 4)
  Except.ok ⟨flex_algo, metric_type, calc_type, priority, sub_tlvs⟩

end FlexAlgorithmDefine

/-- A registry fragment holding the non-recursive decoders defined in this
file, used to instantiate theorems that are stated over an arbitrary
registry. The real `LinkState.registered_tlvs` holds these same entries (and
further ones, including the two container TLVs themselves). -/
def leafRegistry : Registry := fun t =>
  if t = MultiTopologyIdentifier.TYPE then
    some (fun d => (MultiTopologyIdentifier.unpack d).map
      (fun v => TlvDict.tagged MultiTopologyIdentifier.TYPE_STR (LsVal.ints v)))
  else if t = FlexAlgoExcludeAdminGroup.TYPE then
    some (fun d => (FlexAlgoExcludeAdminGroup.unpack d).map
      (fun v => TlvDict.tagged FlexAlgoExcludeAdminGroup.TYPE_STR (LsVal.ints v)))
  else if t = FlexAlgoIncludeAnyAdminGroup.TYPE then
    some (fun d => (FlexAlgoIncludeAnyAdminGroup.unpack d).map
      (fun v => TlvDict.tagged FlexAlgoIncludeAnyAdminGroup.TYPE_STR (LsVal.ints v)))
  else if t = FlexAlgoIncludeAllAdminGroup.TYPE then
    some (fun d => (FlexAlgoIncludeAllAdminGroup.unpack d).map
      (fun v => TlvDict.tagged FlexAlgoIncludeAllAdminGroup.TYPE_STR (LsVal.ints v)))
  else if t = FlexAlgoDefinitionFlags.TYPE then
    some (fun d => (FlexAlgoDefinitionFlags.unpack d).map
      (fun m => TlvDict.tagged FlexAlgoDefinitionFlags.TYPE_STR (LsVal.mflag m)))
  else if t = FlexAlgoExcludeSRLG.TYPE then
    some (fun d => (FlexAlgoExcludeSRLG.unpack d).map
      (fun v => TlvDict.tagged FlexAlgoExcludeSRLG.TYPE_STR (LsVal.ints v)))
  else none

example : AppSpecLinkAttr.unpack leafRegistry [0, 0, 0, 0]
    = Except.ok ⟨0, none, 0, none, []⟩ := by decide
example : AppSpecLinkAttr.unpack leafRegistry [0, 0]
    = Except.ok ⟨0, none, 0, none, []⟩ := by decide
example : AppSpecLinkAttr.unpack leafRegistry
      [0, 0, 0, 0, 255, 255, 0, 4, 222, 173, 190, 239]
    = Except.ok ⟨0, none, 0, none,
        [TlvDict.fallback 65535 (pyBytesStr "deadbeef")]⟩ := by decide
example : FlexAlgorithmDefine.unpack leafRegistry
      [128, 1, 0, 128, 4, 19, 0, 2, 128, 0]
    = Except.ok ⟨128, 1, 0, 128,
        [TlvDict.tagged "flex_algo_defn_flags" (LsVal.mflag 1)]⟩ := by decide
example : AppSpecLinkAttr.unpack leafRegistry [8, 8, 0, 0,
      18, 52, 86, 120, 154, 188, 222, 240, 0, 0, 0, 0, 0, 0, 0, 255]
    = Except.ok ⟨8, some "0x123456789abcdef0", 8, some "0x00000000000000ff", []⟩ := by
  decide

/-!
AS_PATH codec. The implementation module `yabgp/message/attribute/aspath.py`
is not among the provided source files; only its unit tests are. The
definitions in this section are therefore modelled from the specification
(section 4.6 and the error taxonomy of section 7), with the test fixtures as
byte-level anchors.
-/

/-- RFC 4271 Attribute Length Error sub-code, constant
`ERR_MSG_UPDATE_ATTR_LEN` of `yabgp.common.constants`. -/
def ERR_MSG_UPDATE_ATTR_LEN : Nat := 5

/-- RFC 4271 Malformed AS_PATH sub-code, constant
`ERR_MSG_UPDATE_MALFORMED_ASPATH` of `yabgp.common.constants`. -/
def ERR_MSG_UPDATE_MALFORMED_ASPATH : Nat := 11

/-- Classified BGP UPDATE error carrying its RFC 4271 sub-code, modelling
`UpdateMessageError` with its `sub_error` field. -/
inductive ASPathError where
  | updateError : Nat → ASPathError
deriving DecidableEq

namespace ASPath

/-- Byte width of one ASN at the negotiated capability: 4 when `asn4`, else 2. -/
def asnWidth (asn4 : Bool) : Nat := if asn4 then 4 else 2

/-- Reads `c` big-endian ASNs of width `w` from the front of a buffer. -/
def chunkASNs (w : Nat) : Nat → List Nat → List Nat
  | 0, _ => []
  | c + 1, d => beNat (d.take w) :: chunkASNs w c (d.drop w)

/-- Modelled from the spec: fuel-driven worker for `ASPath.parse`. The fuel
only bounds the recursion depth (each segment consumes at least its 2-byte
header, so any fuel at least the buffer length is enough) and never affects
the value on sufficient fuel; see `parseGo_congr`. -/
def parseGo (asn4 : Bool) : Nat → List Nat → Except ASPathError (List (Nat × List Nat))
  | _, [] => Except.ok []
  | _, [_] => Except.error (ASPathError.updateError ERR_MSG_UPDATE_ATTR_LEN)
  | 0, _ :: _ :: _ => Except.ok []
  | fuel + 1, t :: c :: rest =>
    if t = 1 ∨ t = 2 ∨ t = 3 ∨ t = 4 then
      if rest.length < asnWidth asn4 * c then
        Except.error (ASPathError.updateError ERR_MSG_UPDATE_ATTR_LEN)
      else
        (parseGo asn4 fuel (rest.drop (asnWidth asn4 * c))).map
          (fun tail => (t, chunkASNs (asnWidth asn4) c rest) :: tail)
    else Except.error (ASPathError.updateError ERR_MSG_UPDATE_MALFORMED_ASPATH)

/-- Modelled from the spec: `ASPath.parse` over an attribute value buffer.
Repeatedly reads a 2-byte segment header of segment type (must be one of
1, 2, 3, 4, else the Malformed AS_PATH sub-code) and ASN count, then the
declared count of ASNs at the negotiated width, failing with the Attribute
Length Error sub-code when fewer bytes remain than the header or the body
requires; an empty buffer yields the empty segment list. -/
def parse (asn4 : Bool) (data : List Nat) : Except ASPathError (List (Nat × List Nat)) :=
  parseGo asn4 data.length data

theorem parseGo_congr (asn4 : Bool) :
    ∀ f₁ f₂ data, data.length ≤ f₁ → data.length ≤ f₂ →
      parseGo asn4 f₁ data = parseGo asn4 f₂ data := by
  intro f₁
  induction f₁ using Nat.strong_induction_on with
  | _ f₁ ih =>
    intro f₂ data h₁ h₂
    match f₁, f₂, data with
    | _, _, [] => simp [parseGo]
    | _, _, [x] => simp [parseGo]
    | 0, _, _ :: _ :: _ => simp at h₁
    | f₁ + 1, 0, _ :: _ :: _ => simp at h₂
    | f₁ + 1, f₂ + 1, t :: c :: rest =>
      simp only [parseGo]
      by_cases ht : t = 1 ∨ t = 2 ∨ t = 3 ∨ t = 4
      · simp only [ht, if_true]
        by_cases hlen : rest.length < asnWidth asn4 * c
        · simp only [hlen, if_true]
        · simp only [hlen, if_false]
          rw [ih f₁ (by omega) f₂ (rest.drop (asnWidth asn4 * c))
            (by simp only [List.length_drop]; simp only [List.length_cons] at h₁; omega)
            (by simp only [List.length_drop]; simp only [List.length_cons] at h₂; omega)]
      · simp only [ht, if_false]

/-- Parsing the empty value buffer yields the empty segment list. -/
theorem parse_nil (asn4 : Bool) : parse asn4 [] = Except.ok [] := rfl

/-- A single leftover byte cannot hold the 2-byte segment header. -/
theorem parse_single (asn4 : Bool) (x : Nat) :
    parse asn4 [x] = Except.error (ASPathError.updateError ERR_MSG_UPDATE_ATTR_LEN) := rfl

/-- Source-shaped unfolding of one segment of `ASPath.parse`. -/
theorem parse_cons (asn4 : Bool) (t c : Nat) (rest : List Nat) :
    parse asn4 (t :: c :: rest) =
      if t = 1 ∨ t = 2 ∨ t = 3 ∨ t = 4 then
        if rest.length < asnWidth asn4 * c then
          Except.error (ASPathError.updateError ERR_MSG_UPDATE_ATTR_LEN)
        else
          (parse asn4 (rest.drop (asnWidth asn4 * c))).map
            (fun tail => (t, chunkASNs (asnWidth asn4) c rest) :: tail)
      else Except.error (ASPathError.updateError ERR_MSG_UPDATE_MALFORMED_ASPATH) := by
  show parseGo asn4 (rest.length + 2) (t :: c :: rest) = _
  simp only [parseGo]
  by_cases ht : t = 1 ∨ t = 2 ∨ t = 3 ∨ t = 4
  · simp only [ht, if_true]
    by_cases hlen : rest.length < asnWidth asn4 * c
    · simp only [hlen, if_true]
    · simp only [hlen, if_false]
      rw [parseGo_congr asn4 (rest.length + 1) (rest.drop (asnWidth asn4 * c)).length
        (rest.drop (asnWidth asn4 * c))
        (by simp only [List.length_drop]; omega) (le_refl _)]
      rfl
  · simp only [ht, if_false]

/-- Big-endian byte encoding of `n` at width `w` (the value of
`struct.pack` at an in-range argument). -/
def beBytes : Nat → Nat → List Nat
  | 0, _ => []
  | w + 1, n => beBytes w (n / 256) ++ [n % 256]

/-- Models `struct.pack` at width `w`: fails with `struct.error` when the
value does not fit. -/
def packU (w n : Nat) : Except PyErr (List Nat) :=
  if n < 256 ^ w then Except.ok (beBytes w n) else Except.error PyErr.structError

/-- Modelled from the spec: each ASN of a segment encoded at the negotiated
width. -/
def packASNs (w : Nat) : List Nat → Except PyErr (List Nat)
  | [] => Except.ok []
  | a :: rest => do
    let ab ← packU w a
    let tail ← packASNs w rest
    Except.ok (ab ++ tail)

/-- Modelled from the spec: the concatenated segment encodings of
`ASPath.construct`, each segment emitted as the 2-byte header of segment
type and ASN count followed by the ASNs at the negotiated width. -/
def constructSegments (asn4 : Bool) : List (Nat × List Nat) → Except PyErr (List Nat)
  | [] => Except.ok []
  | (t, asns) :: rest => do
    let tb ← packU 1 t
    let cb ← packU 1 asns.length
    let body ← packASNs (asnWidth asn4) asns
    let tail ← constructSegments asn4 rest
    Except.ok (tb ++ cb ++ body ++ tail)

/-- Modelled from the spec: the standard attribute header prepended by
`ASPath.construct`: the well-known-transitive flags byte 0x40, the AS_PATH
attribute type code 2, and the body length as one byte, or two bytes with
the extended-length flag bit set when the body exceeds 255 bytes. -/
def attrHeader (bodyLen : Nat) : List Nat :=
  if bodyLen < 256 then [64, 2, bodyLen]
  else [80, 2, bodyLen / 256 % 256, bodyLen % 256]

/-- Modelled from the spec: `ASPath.construct` returns the attribute header
followed by the concatenated segment encodings. -/
def construct (asn4 : Bool) (value : List (Nat × List Nat)) : Except PyErr (List Nat) := do
  let body ← constructSegments asn4 value
  Except.ok (attrHeader body.length ++ body)

end ASPath

example : ASPath.parse false [2, 4, 12, 185, 121, 51, 136, 32, 83, 217]
    = Except.ok [(2, [3257, 31027, 34848, 21465])] := by decide
example : ASPath.parse true
      [2, 4, 0, 0, 12, 185, 0, 0, 121, 51, 0, 0, 136, 32, 0, 0, 83, 217]
    = Except.ok [(2, [3257, 31027, 34848, 21465])] := by decide
example : ASPath.parse false [5, 4, 12, 185, 121, 51, 136, 32, 83, 217]
    = Except.error (ASPathError.updateError 11) := by decide
example : ASPath.parse false [2, 1, 0]
    = Except.error (ASPathError.updateError 5) := by decide
example : ASPath.construct false [(2, [3257, 31027, 34848, 21465])]
    = Except.ok [64, 2, 10, 2, 4, 12, 185, 121, 51, 136, 32, 83, 217] := by decide
example : ASPath.parse false [4, 2, 3, 233, 3, 234, 3, 2, 3, 235, 3, 236]
    = Except.ok [(4, [1001, 1002]), (3, [1003, 1004])] := by decide

/-!
General inversion and arithmetic lemmas used across the development.
-/

theorem except_bind_ok {ε α β : Type} {x : Except ε α} {f : α → Except ε β} {b : β}
    (h : x >>= f = Except.ok b) : ∃ a, x = Except.ok a ∧ f a = Except.ok b := by
  match x with
  | Except.error e => exact absurd h (by intro hc; exact Except.noConfusion hc)
  | Except.ok a => exact ⟨a, rfl, h⟩

theorem except_map_ok {ε α β : Type} {x : Except ε α} {f : α → β} {b : β}
    (h : x.map f = Except.ok b) : ∃ a, x = Except.ok a ∧ f a = b := by
  match x with
  | Except.error e => exact absurd h (by intro hc; exact Except.noConfusion hc)
  | Except.ok a =>
    refine ⟨a, rfl, ?_⟩
    simpa [Except.map] using h

theorem beBytes_length : ∀ w n : Nat, (ASPath.beBytes w n).length = w := by
  intro w
  induction w with
  | zero => intro n; rfl
  | succ w ih =>
    intro n
    simp [ASPath.beBytes, ih]

theorem beNat_append_byte (l : List Nat) (b : Nat) :
    beNat (l ++ [b]) = 256 * beNat l + b := by
  simp [beNat, List.foldl_append]

theorem beNat_beBytes : ∀ w n : Nat, n < 256 ^ w → beNat (ASPath.beBytes w n) = n := by
  intro w
  induction w with
  | zero =>
    intro n h
    simp [pow_zero] at h
    simp [ASPath.beBytes, beNat, h]
  | succ w ih =>
    intro n h
    have hdiv : n / 256 < 256 ^ w := by
      rw [Nat.div_lt_iff_lt_mul (by norm_num : 0 < 256)]
      calc n < 256 ^ (w + 1) := h
        _ = 256 ^ w * 256 := by ring
    simp only [ASPath.beBytes, beNat_append_byte, ih (n / 256) hdiv]
    omega

theorem packU_ok {w n : Nat} {bs : List Nat} (h : ASPath.packU w n = Except.ok bs) :
    bs = ASPath.beBytes w n ∧ n < 256 ^ w := by
  unfold ASPath.packU at h
  by_cases hn : n < 256 ^ w
  · rw [if_pos hn] at h
    exact ⟨(Except.ok.injEq _ _ ▸ h).symm, hn⟩
  · rw [if_neg hn] at h
    exact absurd h (by intro hc; exact Except.noConfusion hc)

theorem beBytes_one {n : Nat} (h : n < 256) : ASPath.beBytes 1 n = [n] := by
  simp [ASPath.beBytes, Nat.mod_eq_of_lt h]

theorem packASNs_spec (w : Nat) : ∀ asns body, ASPath.packASNs w asns = Except.ok body →
    body.length = w * asns.length
    ∧ ∀ r, ASPath.chunkASNs w asns.length (body ++ r) = asns
        ∧ (body ++ r).drop (w * asns.length) = r := by
  intro asns
  induction asns with
  | nil =>
    intro body h
    simp only [ASPath.packASNs] at h
    injection h with h
    subst h
    simp [ASPath.chunkASNs]
  | cons a rest ih =>
    intro body h
    simp only [ASPath.packASNs] at h
    obtain ⟨ab, hab, h⟩ := except_bind_ok h
    obtain ⟨tail, htail, h⟩ := except_bind_ok h
    injection h with h
    subst h
    obtain ⟨habs, hlt⟩ := packU_ok hab
    subst habs
    obtain ⟨hlen, hrt⟩ := ih tail htail
    have hw : (ASPath.beBytes w a).length = w := beBytes_length w a
    refine ⟨by simp [hw, hlen]; ring, ?_⟩
    intro r
    have hassoc : ASPath.beBytes w a ++ tail ++ r = ASPath.beBytes w a ++ (tail ++ r) := by
      simp
    have hms : w * (rest.length + 1) = w + w * rest.length := by ring
    constructor
    · show ASPath.chunkASNs w (rest.length + 1) (ASPath.beBytes w a ++ tail ++ r)
        = a :: rest
      simp only [ASPath.chunkASNs, hassoc]
      rw [List.take_left' hw, List.drop_left' hw, beNat_beBytes w a hlt, (hrt r).1]
    · simp only [List.length_cons]
      rw [hassoc, hms, ← List.drop_drop, List.drop_left' hw]
      exact (hrt r).2

theorem constructSegments_parse (asn4 : Bool) :
    ∀ p body, (∀ s ∈ p, s.1 = 1 ∨ s.1 = 2 ∨ s.1 = 3 ∨ s.1 = 4) →
      ASPath.constructSegments asn4 p = Except.ok body →
      ASPath.parse asn4 body = Except.ok p := by
  intro p
  induction p with
  | nil =>
    intro body _ h
    simp only [ASPath.constructSegments] at h
    injection h with h
    subst h
    exact ASPath.parse_nil asn4
  | cons s rest ih =>
    intro body hp h
    obtain ⟨t, asns⟩ := s
    simp only [ASPath.constructSegments] at h
    obtain ⟨tb, htb, h⟩ := except_bind_ok h
    obtain ⟨cb, hcb, h⟩ := except_bind_ok h
    obtain ⟨abody, habody, h⟩ := except_bind_ok h
    obtain ⟨tail, htail, h⟩ := except_bind_ok h
    injection h with h
    subst h
    obtain ⟨htb1, htlt⟩ := packU_ok htb
    obtain ⟨hcb1, hclt⟩ := packU_ok hcb
    rw [pow_one] at htlt hclt
    subst htb1
    subst hcb1
    rw [beBytes_one htlt, beBytes_one hclt]
    have hterm : [t] ++ [asns.length] ++ abody ++ tail
        = t :: asns.length :: (abody ++ tail) := by simp
    rw [hterm, ASPath.parse_cons]
    have ht : t = 1 ∨ t = 2 ∨ t = 3 ∨ t = 4 := hp (t, asns) (List.mem_cons_self _ _)
    rw [if_pos ht]
    obtain ⟨hlen, hrt⟩ := packASNs_spec (ASPath.asnWidth asn4) asns abody habody
    have hnotlt : ¬ (abody ++ tail).length < ASPath.asnWidth asn4 * asns.length := by
      simp [List.length_append, hlen]
    rw [if_neg hnotlt]
    rw [(hrt tail).2, ih tail (fun s hs => hp s (List.mem_cons_of_mem _ hs)) htail]
    rw [(hrt tail).1]
    rfl

/-- C1 (counterexample): on the literal path of the claim, the octets
produced by `ASPath.construct` start with the attribute header 40 02 0a,
which `ASPath.parse` does not strip: parsing the constructed octets reads
the flags byte 0x40 as a segment type outside 1-4 and fails with the
Malformed AS_PATH sub-code instead of returning the path. -/
theorem aspath_parse_construct_counterexample :
    ASPath.construct false [(2, [3257, 31027, 34848, 21465])]
      = Except.ok [64, 2, 10, 2, 4, 12, 185, 121, 51, 136, 32, 83, 217]
    ∧ ASPath.parse false [64, 2, 10, 2, 4, 12, 185, 121, 51, 136, 32, 83, 217]
      = Except.error (ASPathError.updateError ERR_MSG_UPDATE_MALFORMED_ASPATH) := by
  decide

/-- C1 (amended): for every well-formed segment list whose segments encode
successfully (each segment type in 1-4; encodability of the count byte and of
each ASN at the negotiated width is exactly success of the segment encoder),
parsing the segment octets produced by `ASPath.construct` after its prepended
attribute header returns the path exactly; and the construct output on the
literal path of the claim is exactly the bytes
40 02 0a 02 04 0c b9 79 33 88 20 53 d9, header included. -/
theorem aspath_construct_parse_roundtrip (asn4 : Bool) (p : List (Nat × List Nat))
    (hp : ∀ s ∈ p, s.1 = 1 ∨ s.1 = 2 ∨ s.1 = 3 ∨ s.1 = 4)
    (body : List Nat) (hb : ASPath.constructSegments asn4 p = Except.ok body) :
    ASPath.parse asn4 body = Except.ok p
    ∧ ASPath.construct asn4 p = Except.ok (ASPath.attrHeader body.length ++ body)
    ∧ ASPath.construct false [(2, [3257, 31027, 34848, 21465])]
      = Except.ok [64, 2, 10, 2, 4, 12, 185, 121, 51, 136, 32, 83, 217] := by
  refine ⟨constructSegments_parse asn4 p body hp hb, ?_, by decide⟩
  unfold ASPath.construct
  rw [hb]
  rfl

/-- C1 (witness): the amended round trip evaluated on the literal path of the
claim with asn4 false. -/
theorem aspath_construct_parse_roundtrip_witness :
    ASPath.parse false [2, 4, 12, 185, 121, 51, 136, 32, 83, 217]
      = Except.ok [(2, [3257, 31027, 34848, 21465])]
    ∧ ASPath.construct false [(2, [3257, 31027, 34848, 21465])]
      = Except.ok (ASPath.attrHeader 10 ++ [2, 4, 12, 185, 121, 51, 136, 32, 83, 217])
    ∧ ASPath.construct false [(2, [3257, 31027, 34848, 21465])]
      = Except.ok [64, 2, 10, 2, 4, 12, 185, 121, 51, 136, 32, 83, 217] :=
  aspath_construct_parse_roundtrip false [(2, [3257, 31027, 34848, 21465])]
    (by decide) [2, 4, 12, 185, 121, 51, 136, 32, 83, 217] (by decide)

/-- C8: `ASPath.parse` returns the empty segment list on the empty buffer;
fails with the RFC 4271 Attribute Length Error sub-code when fewer bytes
remain than the 2-byte segment header or the declared ASN body requires (the
body is `count` ASNs of 2 bytes when asn4 is false and 4 bytes when true);
and fails with the Malformed AS_PATH sub-code when the segment type byte is
not in 1-4. -/
theorem aspath_parse_error_classification :
    (∀ asn4 : Bool, ASPath.parse asn4 [] = Except.ok [])
    ∧ (∀ (asn4 : Bool) (x : Nat), ASPath.parse asn4 [x]
        = Except.error (ASPathError.updateError ERR_MSG_UPDATE_ATTR_LEN))
    ∧ (∀ (asn4 : Bool) (t c : Nat) (rest : List Nat),
        ¬ (t = 1 ∨ t = 2 ∨ t = 3 ∨ t = 4) →
        ASPath.parse asn4 (t :: c :: rest)
          = Except.error (ASPathError.updateError ERR_MSG_UPDATE_MALFORMED_ASPATH))
    ∧ (∀ (asn4 : Bool) (t c : Nat) (rest : List Nat),
        (t = 1 ∨ t = 2 ∨ t = 3 ∨ t = 4) →
        rest.length < ASPath.asnWidth asn4 * c →
        ASPath.parse asn4 (t :: c :: rest)
          = Except.error (ASPathError.updateError ERR_MSG_UPDATE_ATTR_LEN)) := by
  refine ⟨fun asn4 => ASPath.parse_nil asn4, fun asn4 x => ASPath.parse_single asn4 x,
    ?_, ?_⟩
  · intro asn4 t c rest ht
    rw [ASPath.parse_cons, if_neg ht]
  · intro asn4 t c rest ht hlen
    rw [ASPath.parse_cons, if_pos ht, if_pos hlen]

/-- C8 (witness): the error classification evaluated at the literal inputs of
the tests: the empty buffer, a 1-byte buffer, the malformed segment type 0x05
fixture, and a truncated 4-byte-ASN body. -/
theorem aspath_parse_error_classification_witness :
    ASPath.parse false [] = Except.ok []
    ∧ ASPath.parse false [2]
      = Except.error (ASPathError.updateError ERR_MSG_UPDATE_ATTR_LEN)
    ∧ ASPath.parse false (5 :: 4 :: [12, 185, 121, 51, 136, 32, 83, 217])
      = Except.error (ASPathError.updateError ERR_MSG_UPDATE_MALFORMED_ASPATH)
    ∧ ASPath.parse true (2 :: 1 :: [0, 0, 0])
      = Except.error (ASPathError.updateError ERR_MSG_UPDATE_ATTR_LEN) :=
  ⟨aspath_parse_error_classification.1 false,
    aspath_parse_error_classification.2.1 false 2,
    aspath_parse_error_classification.2.2.1 false 5 4 [12, 185, 121, 51, 136, 32, 83, 217]
      (by decide),
    aspath_parse_error_classification.2.2.2 true 2 1 [0, 0, 0] (by decide) (by decide)⟩

theorem beNat_four (a b c d : Nat) :
    beNat [a, b, c, d] = 256 * (256 * (256 * a + b) + c) + d := by
  simp [beNat]

theorem beNat_two (a b : Nat) : beNat [a, b] = 256 * a + b := by
  simp [beNat]

theorem list_len_four {w : List Nat} (h : w.length = 4) :
    ∃ a b c d : Nat, w = [a, b, c, d] := by
  match w, h with
  | [a, b, c, d], _ => exact ⟨a, b, c, d, rfl⟩

theorem list_len_two {w : List Nat} (h : w.length = 2) :
    ∃ a b : Nat, w = [a, b] := by
  match w, h with
  | [a, b], _ => exact ⟨a, b, rfl⟩

theorem excl_eq_inclAny : ∀ d, FlexAlgoExcludeAdminGroup.unpack d
    = FlexAlgoIncludeAnyAdminGroup.unpack d
  | [] => rfl
  | [_] => rfl
  | [_, _] => rfl
  | [_, _, _] => rfl
  | _ :: _ :: _ :: _ :: rest => by
    simp only [FlexAlgoExcludeAdminGroup.unpack, FlexAlgoIncludeAnyAdminGroup.unpack,
      excl_eq_inclAny rest]

theorem inclAny_eq_inclAll : ∀ d, FlexAlgoIncludeAnyAdminGroup.unpack d
    = FlexAlgoIncludeAllAdminGroup.unpack d
  | [] => rfl
  | [_] => rfl
  | [_, _] => rfl
  | [_, _, _] => rfl
  | _ :: _ :: _ :: _ :: rest => by
    simp only [FlexAlgoIncludeAnyAdminGroup.unpack, FlexAlgoIncludeAllAdminGroup.unpack,
      inclAny_eq_inclAll rest]

theorem inclAll_eq_srlg : ∀ d, FlexAlgoIncludeAllAdminGroup.unpack d
    = FlexAlgoExcludeSRLG.unpack d
  | [] => rfl
  | [_] => rfl
  | [_, _] => rfl
  | [_, _, _] => rfl
  | _ :: _ :: _ :: _ :: rest => by
    simp only [FlexAlgoIncludeAllAdminGroup.unpack, FlexAlgoExcludeSRLG.unpack,
      inclAll_eq_srlg rest]

theorem exclAdminGroup_flatten : ∀ ws : List (List Nat), (∀ w ∈ ws, w.length = 4) →
    FlexAlgoExcludeAdminGroup.unpack ws.flatten = Except.ok (ws.map beNat) := by
  intro ws
  induction ws with
  | nil => intro _; rfl
  | cons w ws ih =>
    intro h
    obtain ⟨a, b, c, d, hw⟩ := list_len_four (h w (List.mem_cons_self _ _))
    subst hw
    have hrest := ih (fun w hw => h w (List.mem_cons_of_mem _ hw))
    simp only [List.flatten_cons, List.cons_append, List.nil_append,
      FlexAlgoExcludeAdminGroup.unpack, List.map_cons]
    rw [show ([] : List Nat).append ws.flatten = ws.flatten from rfl, hrest, beNat_four]
    rfl

theorem exclAdminGroup_ragged : ∀ data : List Nat, data.length % 4 ≠ 0 →
    FlexAlgoExcludeAdminGroup.unpack data = Except.error PyErr.structError
  | [] => by intro h; simp at h
  | [_] => fun _ => rfl
  | [_, _] => fun _ => rfl
  | [_, _, _] => fun _ => rfl
  | a :: b :: c :: d :: rest => by
    intro h
    have hr : rest.length % 4 ≠ 0 := by
      simp only [List.length_cons] at h
      omega
    simp only [FlexAlgoExcludeAdminGroup.unpack, exclAdminGroup_ragged rest hr]
    rfl

theorem flatten_len_four : ∀ ws : List (List Nat), (∀ w ∈ ws, w.length = 4) →
    ws.flatten.length = 4 * ws.length := by
  intro ws
  induction ws with
  | nil => intro _; rfl
  | cons w ws ih =>
    intro h
    simp only [List.flatten_cons, List.length_append, List.length_cons,
      ih (fun w hw => h w (List.mem_cons_of_mem _ hw)), h w (List.mem_cons_self _ _)]
    ring

/-- C5: each of the four list-valued Flex-Algo decoders maps a buffer made of
4-byte chunks to the ordered list of exactly one big-endian u32 per chunk
(so the output length is the buffer length divided by 4), fails with a
struct error on every buffer whose length is not a multiple of 4, and decodes
the literal bytes 00000064 0000012c 000001f4 to the list 100, 300, 500. -/
theorem flexAlgoListDecoders_chunked :
    (∀ ws : List (List Nat), (∀ w ∈ ws, w.length = 4) →
      FlexAlgoExcludeAdminGroup.unpack ws.flatten = Except.ok (ws.map beNat)
      ∧ FlexAlgoIncludeAnyAdminGroup.unpack ws.flatten = Except.ok (ws.map beNat)
      ∧ FlexAlgoIncludeAllAdminGroup.unpack ws.flatten = Except.ok (ws.map beNat)
      ∧ FlexAlgoExcludeSRLG.unpack ws.flatten = Except.ok (ws.map beNat)
      ∧ (ws.map beNat).length = ws.flatten.length / 4)
    ∧ (∀ data : List Nat, data.length % 4 ≠ 0 →
      FlexAlgoExcludeAdminGroup.unpack data = Except.error PyErr.structError
      ∧ FlexAlgoIncludeAnyAdminGroup.unpack data = Except.error PyErr.structError
      ∧ FlexAlgoIncludeAllAdminGroup.unpack data = Except.error PyErr.structError
      ∧ FlexAlgoExcludeSRLG.unpack data = Except.error PyErr.structError)
    ∧ FlexAlgoExcludeAdminGroup.unpack [0, 0, 0, 100, 0, 0, 1, 44, 0, 0, 1, 244]
      = Except.ok [100, 300, 500]
    ∧ FlexAlgoIncludeAnyAdminGroup.unpack [0, 0, 0, 100, 0, 0, 1, 44, 0, 0, 1, 244]
      = Except.ok [100, 300, 500]
    ∧ FlexAlgoIncludeAllAdminGroup.unpack [0, 0, 0, 100, 0, 0, 1, 44, 0, 0, 1, 244]
      = Except.ok [100, 300, 500]
    ∧ FlexAlgoExcludeSRLG.unpack [0, 0, 0, 100, 0, 0, 1, 44, 0, 0, 1, 244]
      = Except.ok [100, 300, 500] := by
  refine ⟨?_, ?_, by decide, by decide, by decide, by decide⟩
  · intro ws h
    have h1 := exclAdminGroup_flatten ws h
    refine ⟨h1, by rw [← excl_eq_inclAny]; exact h1,
      by rw [← inclAny_eq_inclAll, ← excl_eq_inclAny]; exact h1,
      by rw [← inclAll_eq_srlg, ← inclAny_eq_inclAll, ← excl_eq_inclAny]; exact h1, ?_⟩
    rw [flatten_len_four ws h, List.length_map]
    omega
  · intro data h
    have h1 := exclAdminGroup_ragged data h
    exact ⟨h1, by rw [← excl_eq_inclAny]; exact h1,
      by rw [← inclAny_eq_inclAll, ← excl_eq_inclAny]; exact h1,
      by rw [← inclAll_eq_srlg, ← inclAny_eq_inclAll, ← excl_eq_inclAny]; exact h1⟩

/-- C5 (witness): the chunk law evaluated on the literal three-chunk buffer
and the ragged-length law on a 1-byte buffer. -/
theorem flexAlgoListDecoders_chunked_witness :
    (FlexAlgoExcludeAdminGroup.unpack [[0, 0, 0, 100], [0, 0, 1, 44], [0, 0, 1, 244]].flatten
        = Except.ok ([[0, 0, 0, 100], [0, 0, 1, 44], [0, 0, 1, 244]].map beNat)
      ∧ FlexAlgoIncludeAnyAdminGroup.unpack
          [[0, 0, 0, 100], [0, 0, 1, 44], [0, 0, 1, 244]].flatten
        = Except.ok ([[0, 0, 0, 100], [0, 0, 1, 44], [0, 0, 1, 244]].map beNat)
      ∧ FlexAlgoIncludeAllAdminGroup.unpack
          [[0, 0, 0, 100], [0, 0, 1, 44], [0, 0, 1, 244]].flatten
        = Except.ok ([[0, 0, 0, 100], [0, 0, 1, 44], [0, 0, 1, 244]].map beNat)
      ∧ FlexAlgoExcludeSRLG.unpack [[0, 0, 0, 100], [0, 0, 1, 44], [0, 0, 1, 244]].flatten
        = Except.ok ([[0, 0, 0, 100], [0, 0, 1, 44], [0, 0, 1, 244]].map beNat)
      ∧ (([[0, 0, 0, 100], [0, 0, 1, 44], [0, 0, 1, 244]].map beNat)).length
        = [[0, 0, 0, 100], [0, 0, 1, 44], [0, 0, 1, 244]].flatten.length / 4)
    ∧ (FlexAlgoExcludeAdminGroup.unpack [7] = Except.error PyErr.structError
      ∧ FlexAlgoIncludeAnyAdminGroup.unpack [7] = Except.error PyErr.structError
      ∧ FlexAlgoIncludeAllAdminGroup.unpack [7] = Except.error PyErr.structError
      ∧ FlexAlgoExcludeSRLG.unpack [7] = Except.error PyErr.structError) :=
  ⟨flexAlgoListDecoders_chunked.1 [[0, 0, 0, 100], [0, 0, 1, 44], [0, 0, 1, 244]]
      (by decide),
    flexAlgoListDecoders_chunked.2.1 [7] (by decide)⟩

/-- C10: the four list-valued Flex-Algo decoders are extensionally equal as
functions from byte buffers to decode results, and differ pairwise in their
TYPE and TYPE_STR tags. -/
theorem flexAlgoListDecoders_extensionally_equal :
    (∀ data : List Nat,
      FlexAlgoExcludeAdminGroup.unpack data = FlexAlgoIncludeAnyAdminGroup.unpack data
      ∧ FlexAlgoIncludeAnyAdminGroup.unpack data = FlexAlgoIncludeAllAdminGroup.unpack data
      ∧ FlexAlgoIncludeAllAdminGroup.unpack data = FlexAlgoExcludeSRLG.unpack data)
    ∧ FlexAlgoExcludeAdminGroup.TYPE = 1040
    ∧ FlexAlgoIncludeAnyAdminGroup.TYPE = 1041
    ∧ FlexAlgoIncludeAllAdminGroup.TYPE = 1042
    ∧ FlexAlgoExcludeSRLG.TYPE = 1044
    ∧ FlexAlgoExcludeAdminGroup.TYPE_STR ≠ FlexAlgoIncludeAnyAdminGroup.TYPE_STR
    ∧ FlexAlgoIncludeAnyAdminGroup.TYPE_STR ≠ FlexAlgoIncludeAllAdminGroup.TYPE_STR
    ∧ FlexAlgoIncludeAllAdminGroup.TYPE_STR ≠ FlexAlgoExcludeSRLG.TYPE_STR
    ∧ FlexAlgoExcludeAdminGroup.TYPE_STR ≠ FlexAlgoExcludeSRLG.TYPE_STR :=
  ⟨fun data => ⟨excl_eq_inclAny data, inclAny_eq_inclAll data, inclAll_eq_srlg data⟩,
    by decide, by decide, by decide, by decide,
    by decide, by decide, by decide, by decide⟩

theorem mtId_flatten : ∀ ws : List (List Nat), (∀ w ∈ ws, w.length = 2) →
    MultiTopologyIdentifier.unpack ws.flatten = Except.ok (ws.map beNat) := by
  intro ws
  induction ws with
  | nil => intro _; rfl
  | cons w ws ih =>
    intro h
    obtain ⟨a, b, hw⟩ := list_len_two (h w (List.mem_cons_self _ _))
    subst hw
    have hrest := ih (fun w hw => h w (List.mem_cons_of_mem _ hw))
    simp only [List.flatten_cons, List.cons_append, List.map_cons]
    show (MultiTopologyIdentifier.unpack (([] : List Nat).append ws.flatten)).map _
      = _
    rw [show ([] : List Nat).append ws.flatten = ws.flatten from rfl, hrest, beNat_two]
    rfl

theorem mtId_odd : ∀ data : List Nat, data.length % 2 = 1 →
    MultiTopologyIdentifier.unpack data = Except.error PyErr.structError
  | [] => by intro h; simp at h
  | [_] => fun _ => rfl
  | a :: b :: rest => by
    intro h
    have hr : rest.length % 2 = 1 := by
      simp only [List.length_cons] at h
      omega
    show (MultiTopologyIdentifier.unpack rest).map _ = _
    rw [mtId_odd rest hr]
    rfl

/-- C6: `MultiTopologyIdentifier.unpack` maps the empty buffer to the empty
sequence, maps every buffer made of 2-byte chunks to the ordered sequence of
one raw big-endian u16 per chunk with the reserved top 4 bits not masked off
(the literal bytes ff ff decode to 65535), and fails with a struct error on
every odd-length buffer. -/
theorem mtId_unpack_chunked :
    MultiTopologyIdentifier.unpack [] = Except.ok []
    ∧ (∀ ws : List (List Nat), (∀ w ∈ ws, w.length = 2) →
      MultiTopologyIdentifier.unpack ws.flatten = Except.ok (ws.map beNat))
    ∧ (∀ data : List Nat, data.length % 2 = 1 →
      MultiTopologyIdentifier.unpack data = Except.error PyErr.structError)
    ∧ MultiTopologyIdentifier.unpack [255, 255] = Except.ok [65535] :=
  ⟨rfl, mtId_flatten, mtId_odd, by decide⟩

/-- C6 (witness): the chunk law evaluated on the two-chunk buffer holding
0xffff and 0x0002, and the odd-length failure on a 3-byte buffer. -/
theorem mtId_unpack_chunked_witness :
    MultiTopologyIdentifier.unpack [[255, 255], [0, 2]].flatten
      = Except.ok ([[255, 255], [0, 2]].map beNat)
    ∧ MultiTopologyIdentifier.unpack [0, 2, 0] = Except.error PyErr.structError :=
  ⟨mtId_unpack_chunked.2.1 [[255, 255], [0, 2]] (by decide),
    mtId_unpack_chunked.2.2.1 [0, 2, 0] (by decide)⟩

/-- C9: `FlexAlgoDefinitionFlags.unpack` on any input of at least 2 bytes
reads exactly the first two bytes as a big-endian u16 and returns its M flag,
the value shifted right by 15, ignoring the 15 reserved bits and all bytes
beyond the first two; the literal bytes 80 00 yield 1 and 00 00 yield 0. -/
theorem flexAlgoDefnFlags_m_bit :
    (∀ (a b : Nat) (rest : List Nat),
      FlexAlgoDefinitionFlags.unpack (a :: b :: rest) = Except.ok ((256 * a + b) >>> 15))
    ∧ FlexAlgoDefinitionFlags.unpack [128, 0] = Except.ok 1
    ∧ FlexAlgoDefinitionFlags.unpack [0, 0] = Except.ok 0 :=
  ⟨fun a b rest => rfl, by decide, by decide⟩

theorem ok_bind {ε α β : Type} (a : α) (f : α → Except ε β) :
    (Except.ok a >>= f) = f a := rfl

theorem error_bind {ε α β : Type} (e : ε) (f : α → Except ε β) :
    ((Except.error e : Except ε α) >>= f) = Except.error e := rfl

theorem ok_map {ε α β : Type} (f : α → β) (a : α) :
    (Except.ok a : Except ε α).map f = Except.ok (f a) := rfl

theorem error_map {ε α β : Type} (f : α → β) (e : ε) :
    (Except.error e : Except ε α).map f = Except.error e := rfl

theorem structUnpackI_ne {bs : List Nat} (h : bs.length ≠ 4) :
    structUnpackI bs = Except.error PyErr.structError := by
  match bs with
  | [] => rfl
  | [_] => rfl
  | [_, _] => rfl
  | [_, _, _] => rfl
  | [_, _, _, _] => simp at h
  | _ :: _ :: _ :: _ :: _ :: _ => rfl

theorem structUnpackI_ok {bs : List Nat} (h : bs.length = 4) :
    structUnpackI bs = Except.ok (beNat bs) := by
  obtain ⟨a, b, c, d, hw⟩ := list_len_four h
  subst hw
  rw [beNat_four]
  rfl

theorem structUnpackQ_ne {bs : List Nat} (h : bs.length ≠ 8) :
    structUnpackQ bs = Except.error PyErr.structError := by
  match bs with
  | [] => rfl
  | [_] => rfl
  | [_, _] => rfl
  | [_, _, _] => rfl
  | [_, _, _, _] => rfl
  | [_, _, _, _, _] => rfl
  | [_, _, _, _, _, _] => rfl
  | [_, _, _, _, _, _, _] => rfl
  | [_, _, _, _, _, _, _, _] => simp at h
  | _ :: _ :: _ :: _ :: _ :: _ :: _ :: _ :: _ :: _ => rfl

theorem list_len_eight {w : List Nat} (h : w.length = 8) :
    ∃ a b c d e f g k : Nat, w = [a, b, c, d, e, f, g, k] := by
  match w, h with
  | [a, b, c, d, e, f, g, k], _ => exact ⟨a, b, c, d, e, f, g, k, rfl⟩

theorem structUnpackQ_ok {bs : List Nat} (h : bs.length = 8) :
    structUnpackQ bs = Except.ok (beNat bs) := by
  obtain ⟨a, b, c, d, e, f, g, k, hw⟩ := list_len_eight h
  subst hw
  rfl

theorem structUnpackHH_ne {bs : List Nat} (h : bs.length ≠ 4) :
    structUnpackHH bs = Except.error PyErr.structError := by
  match bs with
  | [] => rfl
  | [_] => rfl
  | [_, _] => rfl
  | [_, _, _] => rfl
  | [_, _, _, _] => simp at h
  | _ :: _ :: _ :: _ :: _ :: _ => rfl

/-- C2 (counterexample): the 2-byte buffer 00 00, shorter than the 4-byte
fixed header, decodes successfully instead of failing (the reserved bytes are
never read), and the buffer 03 00 00 00 de ad, whose declared sabm length 3
exceeds the 2 mask bytes present, decodes successfully with the mask silently
truncated to a hex dump of the bytes present. -/
theorem asla_unpack_truncation_counterexample :
    AppSpecLinkAttr.unpack leafRegistry [0, 0]
      = Except.ok ⟨0, none, 0, none, []⟩
    ∧ AppSpecLinkAttr.unpack leafRegistry [3, 0, 0, 0, 222, 173]
      = Except.ok ⟨3, some "0xdead", 0, none, []⟩ := by
  decide

/-- C2 (amended): `AppSpecLinkAttr.unpack` fails with IndexError only when
the buffer has fewer than 2 bytes; it fails with a struct error when a mask
declared of length exactly 4 or exactly 8 has fewer bytes than declared
(shown here for the SABM, and for the UDABM on the fixture of the unit
tests); but for any other positive declared mask length exceeding the bytes
present it succeeds, silently truncating the mask to a hex dump of the bytes
present, and a buffer of 2 or 3 bytes with zero mask lengths succeeds with an
empty sub-TLV sequence. -/
theorem asla_unpack_truncation (reg : Registry) :
    AppSpecLinkAttr.unpack reg [] = Except.error PyErr.indexError
    ∧ (∀ a : Nat, AppSpecLinkAttr.unpack reg [a] = Except.error PyErr.indexError)
    ∧ (∀ (d1 : Nat) (rest : List Nat), (4 :: d1 :: rest).length < 8 →
        AppSpecLinkAttr.unpack reg (4 :: d1 :: rest) = Except.error PyErr.structError)
    ∧ (∀ (d1 : Nat) (rest : List Nat), (8 :: d1 :: rest).length < 12 →
        AppSpecLinkAttr.unpack reg (8 :: d1 :: rest) = Except.error PyErr.structError)
    ∧ (∀ rest : List Nat, (0 :: 8 :: rest).length < 12 →
        AppSpecLinkAttr.unpack reg (0 :: 8 :: rest) = Except.error PyErr.structError)
    ∧ (∀ (s r2 r3 : Nat) (mask : List Nat), s ≠ 0 → s ≠ 4 → s ≠ 8 → mask.length < s →
        AppSpecLinkAttr.unpack reg (s :: 0 :: r2 :: r3 :: mask)
          = Except.ok ⟨s, some ("0x" ++ bytesHex mask), 0, none, []⟩)
    ∧ (∀ r2 : Nat, AppSpecLinkAttr.unpack reg [0, 0] = Except.ok ⟨0, none, 0, none, []⟩
        ∧ AppSpecLinkAttr.unpack reg [0, 0, r2] = Except.ok ⟨0, none, 0, none, []⟩) := by
  refine ⟨rfl, fun a => rfl, ?_, ?_, ?_, ?_, fun r2 => ⟨rfl, rfl⟩⟩
  · intro d1 rest hlen
    have hne : ((rest.drop 2).take 4).length ≠ 4 := by
      simp only [List.length_take, List.length_drop]
      simp only [List.length_cons] at hlen
      omega
    simp [AppSpecLinkAttr.unpack, AppSpecLinkAttr.parseMask, pyIndex, ok_bind, error_bind, error_map,
      structUnpackI_ne hne]
  · intro d1 rest hlen
    have hne : ((rest.drop 2).take 8).length ≠ 8 := by
      simp only [List.length_take, List.length_drop]
      simp only [List.length_cons] at hlen
      omega
    simp [AppSpecLinkAttr.unpack, AppSpecLinkAttr.parseMask, pyIndex, ok_bind, error_bind, error_map,
      structUnpackQ_ne hne]
  · intro rest hlen
    have hne : ((rest.drop 2).take 8).length ≠ 8 := by
      simp only [List.length_take, List.length_drop]
      simp only [List.length_cons] at hlen
      omega
    simp [AppSpecLinkAttr.unpack, AppSpecLinkAttr.parseMask, pyIndex, ok_bind, error_bind, error_map,
      structUnpackQ_ne hne]
  · intro s r2 r3 mask h0 h4 h8 hml
    have hpos : s > 0 := Nat.pos_of_ne_zero h0
    have htake : mask.take s = mask := List.take_of_length_le (le_of_lt hml)
    have hdropall : (s :: 0 :: r2 :: r3 :: mask).drop (4 + s) = [] := by
      apply List.drop_eq_nil_of_le
      simp only [List.length_cons]
      omega
    simp [AppSpecLinkAttr.unpack, AppSpecLinkAttr.parseMask, pyIndex, ok_bind, error_bind, ok_map,
      hpos, h4, h8, htake, hdropall, aslaSubTlvWalk_nil]

theorem walks_eq_aux (reg : Registry) :
    ∀ n data, data.length ≤ n → aslaSubTlvWalk reg data = fadSubTlvWalk reg data := by
  intro n
  induction n with
  | zero =>
    intro data h
    have : data = [] := List.eq_nil_of_length_eq_zero (by omega)
    subst this
    rfl
  | succ n ih =>
    intro data h
    match data with
    | [] => rfl
    | x :: xs =>
      rw [aslaSubTlvWalk_cons, fadSubTlvWalk_cons]
      rcases hH : structUnpackHH ((x :: xs).take 4) with e | tl
      · rfl
      · simp only [Except.instMonad, Except.bind]
        rcases hD : dispatchStep reg tl.1 (((x :: xs).drop 4).take tl.2) with e | item
        · rfl
        · simp only [Except.instMonad, Except.bind]
          rw [ih ((x :: xs).drop (4 + tl.2))
            (by simp only [List.length_drop, List.length_cons]
                simp only [List.length_cons] at h
                omega)]

/-- The two textually identical sub-TLV loops of the ASLA and FAD containers
compute the same function. -/
theorem walks_eq (reg : Registry) (data : List Nat) :
    aslaSubTlvWalk reg data = fadSubTlvWalk reg data :=
  walks_eq_aux reg data.length data (le_refl _)

/-- C3 (counterexample): a sub-TLV whose declared 16-bit length 10 exceeds
the 2 value bytes remaining after its header does not make the decode fail;
in both containers the walk silently proceeds with the shorter value slice
and emits it as a fallback record. -/
theorem subtlv_walk_truncated_value_counterexample :
    aslaSubTlvWalk leafRegistry [255, 255, 0, 10, 222, 173]
      = Except.ok [TlvDict.fallback 65535 (pyBytesStr "dead")]
    ∧ fadSubTlvWalk leafRegistry [255, 255, 0, 10, 222, 173]
      = Except.ok [TlvDict.fallback 65535 (pyBytesStr "dead")] := by
  decide

/-- C3 (amended): in the sub-TLV walk of both containers, a non-empty
remainder of fewer than 4 bytes fails with a struct error from the 4-byte
header read; but a sub-TLV whose declared 16-bit length exceeds the bytes
remaining after its header does NOT fail: the value slice is silently
truncated to the bytes present (shown here for an unregistered type code,
where the truncated slice is emitted as the fallback record and the walk
terminates). -/
theorem subtlv_walk_truncation (reg : Registry) :
    (∀ (x : Nat) (xs : List Nat), (x :: xs).length < 4 →
      aslaSubTlvWalk reg (x :: xs) = Except.error PyErr.structError
      ∧ fadSubTlvWalk reg (x :: xs) = Except.error PyErr.structError)
    ∧ (∀ (t l : Nat) (v : List Nat), reg t = none → t < 65536 → l < 65536 →
        v.length < l →
      aslaSubTlvWalk reg ([t / 256, t % 256, l / 256, l % 256] ++ v)
        = Except.ok [TlvDict.fallback t (pyBytesStr (bytesHex v))]
      ∧ fadSubTlvWalk reg ([t / 256, t % 256, l / 256, l % 256] ++ v)
        = Except.ok [TlvDict.fallback t (pyBytesStr (bytesHex v))]) := by
  constructor
  · intro x xs hlen
    have hne : ((x :: xs).take 4).length ≠ 4 := by
      simp only [List.length_take, List.length_cons]
      simp only [List.length_cons] at hlen
      omega
    have h1 : aslaSubTlvWalk reg (x :: xs) = Except.error PyErr.structError := by
      rw [aslaSubTlvWalk_cons, structUnpackHH_ne hne]
      rfl
    exact ⟨h1, by rw [← walks_eq]; exact h1⟩
  · intro t l v hreg ht hl hvl
    have hdm_t : 256 * (t / 256) + t % 256 = t := by omega
    have hdm_l : 256 * (l / 256) + l % 256 = l := by omega
    have htake : v.take l = v := List.take_of_length_le (le_of_lt hvl)
    have hdrop : (t / 256 :: t % 256 :: l / 256 :: l % 256 :: v).drop (4 + l) = [] := by
      apply List.drop_eq_nil_of_le
      simp only [List.length_cons]
      omega
    have h1 : aslaSubTlvWalk reg ([t / 256, t % 256, l / 256, l % 256] ++ v)
        = Except.ok [TlvDict.fallback t (pyBytesStr (bytesHex v))] := by
      show aslaSubTlvWalk reg (t / 256 :: t % 256 :: l / 256 :: l % 256 :: v) = _
      rw [aslaSubTlvWalk_cons]
      show (structUnpackHH [t / 256, t % 256, l / 256, l % 256]).bind _ = _
      rw [show structUnpackHH [t / 256, t % 256, l / 256, l % 256]
          = Except.ok (t, l) from by simp [structUnpackHH, hdm_t, hdm_l]]
      show (dispatchStep reg t (v.take l)).bind _ = _
      rw [htake]
      show (dispatchStep reg t v).bind _ = _
      rw [show dispatchStep reg t v
          = Except.ok (TlvDict.fallback t (pyBytesStr (bytesHex v))) from by
        simp [dispatchStep, hreg]]
      show (aslaSubTlvWalk reg
          ((t / 256 :: t % 256 :: l / 256 :: l % 256 :: v).drop (4 + l))).bind _ = _
      rw [hdrop, aslaSubTlvWalk_nil]
      rfl
    exact ⟨h1, by rw [← walks_eq]; exact h1⟩

/-- C3 (witness): the amended walk laws evaluated on a 3-byte remainder and
on an unregistered sub-TLV with declared length 10 but only 2 value bytes. -/
theorem subtlv_walk_truncation_witness :
    (aslaSubTlvWalk leafRegistry (255 :: [255, 0]) = Except.error PyErr.structError
      ∧ fadSubTlvWalk leafRegistry (255 :: [255, 0]) = Except.error PyErr.structError)
    ∧ (aslaSubTlvWalk leafRegistry
          ([65535 / 256, 65535 % 256, 10 / 256, 10 % 256] ++ [222, 173])
        = Except.ok [TlvDict.fallback 65535 (pyBytesStr (bytesHex [222, 173]))]
      ∧ fadSubTlvWalk leafRegistry
          ([65535 / 256, 65535 % 256, 10 / 256, 10 % 256] ++ [222, 173])
        = Except.ok [TlvDict.fallback 65535 (pyBytesStr (bytesHex [222, 173]))]) :=
  ⟨(subtlv_walk_truncation leafRegistry).1 255 [255, 0] (by decide),
    (subtlv_walk_truncation leafRegistry).2 65535 10 [222, 173] rfl (by decide)
      (by decide) (by decide)⟩

/-- C4 (counterexample): an unknown sub-TLV type 0xffff with value bytes
de ad be ef is emitted as a fallback record whose value field is the Python
str of the b2a_hex bytes object, that is, the lower-case hex wrapped in a
bytes literal, not the bare lower-case hex string the claim describes. -/
theorem unknown_subtlv_fallback_counterexample :
    AppSpecLinkAttr.unpack leafRegistry [0, 0, 0, 0, 255, 255, 0, 4, 222, 173, 190, 239]
      = Except.ok ⟨0, none, 0, none, [TlvDict.fallback 65535 (pyBytesStr "deadbeef")]⟩
    ∧ pyBytesStr "deadbeef" ≠ "deadbeef" := by
  decide

/-- C4 (amended): a sub-TLV whose 16-bit type code is not in the registry
does not make the container decode fail: it is emitted as the fallback record
of its numeric type code and the Python str of the b2a_hex bytes object of
its raw value bytes (the lower-case hex wrapped as a bytes literal), and
decoding of sibling sub-TLVs and of the parent ASLA or FAD attribute
continues normally. -/
theorem unknown_subtlv_fallback (reg : Registry) (t l : Nat) (v rest : List Nat)
    (hreg : reg t = none) (hlen : v.length = l) (ht : t < 65536) (hl : l < 65536) :
    aslaSubTlvWalk reg ([t / 256, t % 256, l / 256, l % 256] ++ v ++ rest)
      = (aslaSubTlvWalk reg rest).map
          (fun subs => TlvDict.fallback t (pyBytesStr (bytesHex v)) :: subs)
    ∧ fadSubTlvWalk reg ([t / 256, t % 256, l / 256, l % 256] ++ v ++ rest)
      = (fadSubTlvWalk reg rest).map
          (fun subs => TlvDict.fallback t (pyBytesStr (bytesHex v)) :: subs)
    ∧ (∀ (subs : List TlvDict) (r2 r3 : Nat), aslaSubTlvWalk reg rest = Except.ok subs →
        AppSpecLinkAttr.unpack reg
            (0 :: 0 :: r2 :: r3 :: ([t / 256, t % 256, l / 256, l % 256] ++ v ++ rest))
          = Except.ok ⟨0, none, 0, none,
              TlvDict.fallback t (pyBytesStr (bytesHex v)) :: subs⟩)
    ∧ (∀ (subs : List TlvDict) (a b c d : Nat), fadSubTlvWalk reg rest = Except.ok subs →
        FlexAlgorithmDefine.unpack reg
            (a :: b :: c :: d :: ([t / 256, t % 256, l / 256, l % 256] ++ v ++ rest))
          = Except.ok ⟨a, b, c, d,
              TlvDict.fallback t (pyBytesStr (bytesHex v)) :: subs⟩) := by
  have hdm_t : 256 * (t / 256) + t % 256 = t := by omega
  have hdm_l : 256 * (l / 256) + l % 256 = l := by omega
  have htake : (v ++ rest).take l = v := List.take_left' hlen
  have hdroplv : (v ++ rest).drop l = rest := List.drop_left' hlen
  have hdrop : (t / 256 :: t % 256 :: l / 256 :: l % 256 :: (v ++ rest)).drop (4 + l)
      = rest := by
    rw [← List.drop_drop]
    exact hdroplv
  have h1 : aslaSubTlvWalk reg ([t / 256, t % 256, l / 256, l % 256] ++ v ++ rest)
      = (aslaSubTlvWalk reg rest).map
          (fun subs => TlvDict.fallback t (pyBytesStr (bytesHex v)) :: subs) := by
    show aslaSubTlvWalk reg
        (t / 256 :: t % 256 :: l / 256 :: l % 256 :: (v ++ rest)) = _
    rw [aslaSubTlvWalk_cons]
    show (structUnpackHH [t / 256, t % 256, l / 256, l % 256]).bind _ = _
    rw [show structUnpackHH [t / 256, t % 256, l / 256, l % 256]
        = Except.ok (t, l) from by simp [structUnpackHH, hdm_t, hdm_l]]
    show (dispatchStep reg t ((v ++ rest).take l)).bind _ = _
    rw [htake]
    rw [show dispatchStep reg t v
        = Except.ok (TlvDict.fallback t (pyBytesStr (bytesHex v))) from by
      simp [dispatchStep, hreg]]
    show (aslaSubTlvWalk reg
        ((t / 256 :: t % 256 :: l / 256 :: l % 256 :: (v ++ rest)).drop (4 + l))).bind _
      = _
    rw [hdrop]
    rcases hW : aslaSubTlvWalk reg rest with e | subs
    · rfl
    · rfl
  have h2 : fadSubTlvWalk reg ([t / 256, t % 256, l / 256, l % 256] ++ v ++ rest)
      = (fadSubTlvWalk reg rest).map
          (fun subs => TlvDict.fallback t (pyBytesStr (bytesHex v)) :: subs) := by
    rw [← walks_eq, ← walks_eq]
    exact h1
  refine ⟨h1, h2, ?_, ?_⟩
  · intro subs r2 r3 hW
    have hwalk : aslaSubTlvWalk reg
        ((0 :: 0 :: r2 :: r3 :: ([t / 256, t % 256, l / 256, l % 256] ++ v ++ rest)).drop
          (4 + 0 + 0))
        = Except.ok (TlvDict.fallback t (pyBytesStr (bytesHex v)) :: subs) := by
      show aslaSubTlvWalk reg ([t / 256, t % 256, l / 256, l % 256] ++ v ++ rest) = _
      rw [h1, hW]
      rfl
    simp [AppSpecLinkAttr.unpack, AppSpecLinkAttr.parseMask, pyIndex, ok_bind] at hwalk ⊢
    rw [hwalk]
    rfl
  · intro subs a b c d hW
    have hwalk : fadSubTlvWalk reg
        ((a :: b :: c :: d :: ([t / 256, t % 256, l / 256, l % 256] ++ v ++ rest)).drop 4)
        = Except.ok (TlvDict.fallback t (pyBytesStr (bytesHex v)) :: subs) := by
      show fadSubTlvWalk reg ([t / 256, t % 256, l / 256, l % 256] ++ v ++ rest) = _
      rw [h2, hW]
      rfl
    simp [FlexAlgorithmDefine.unpack, structUnpackBBBB, ok_bind] at hwalk ⊢
    rw [hwalk]
    rfl

/-- C4 (witness): the amended fallback law evaluated on the unknown type
0xffff with value de ad be ef followed by a registered sibling sub-TLV
(Flex-Algo definition flags 1043), inside both containers. -/
theorem unknown_subtlv_fallback_witness :
    aslaSubTlvWalk leafRegistry
        ([65535 / 256, 65535 % 256, 4 / 256, 4 % 256] ++ [222, 173, 190, 239]
          ++ [4, 19, 0, 2, 128, 0])
      = (aslaSubTlvWalk leafRegistry [4, 19, 0, 2, 128, 0]).map
          (fun subs =>
            TlvDict.fallback 65535 (pyBytesStr (bytesHex [222, 173, 190, 239])) :: subs)
    ∧ AppSpecLinkAttr.unpack leafRegistry
        (0 :: 0 :: 0 :: 0 :: ([65535 / 256, 65535 % 256, 4 / 256, 4 % 256]
          ++ [222, 173, 190, 239] ++ [4, 19, 0, 2, 128, 0]))
      = Except.ok ⟨0, none, 0, none,
          TlvDict.fallback 65535 (pyBytesStr (bytesHex [222, 173, 190, 239]))
            :: [TlvDict.tagged "flex_algo_defn_flags" (LsVal.mflag 1)]⟩
    ∧ FlexAlgorithmDefine.unpack leafRegistry
        (128 :: 1 :: 0 :: 128 :: ([65535 / 256, 65535 % 256, 4 / 256, 4 % 256]
          ++ [222, 173, 190, 239] ++ [4, 19, 0, 2, 128, 0]))
      = Except.ok ⟨128, 1, 0, 128,
          TlvDict.fallback 65535 (pyBytesStr (bytesHex [222, 173, 190, 239]))
            :: [TlvDict.tagged "flex_algo_defn_flags" (LsVal.mflag 1)]⟩ :=
  ⟨(unknown_subtlv_fallback leafRegistry 65535 4 [222, 173, 190, 239]
      [4, 19, 0, 2, 128, 0] rfl rfl (by decide) (by decide)).1,
    (unknown_subtlv_fallback leafRegistry 65535 4 [222, 173, 190, 239]
      [4, 19, 0, 2, 128, 0] rfl rfl (by decide) (by decide)).2.2.1
      [TlvDict.tagged "flex_algo_defn_flags" (LsVal.mflag 1)] 0 0 (by decide),
    (unknown_subtlv_fallback leafRegistry 65535 4 [222, 173, 190, 239]
      [4, 19, 0, 2, 128, 0] rfl rfl (by decide) (by decide)).2.2.2
      [TlvDict.tagged "flex_algo_defn_flags" (LsVal.mflag 1)] 128 1 0 128 (by decide)⟩

/-- The mask rendering policy of `AppSpecLinkAttr.unpack` by declared length:
null for length 0, a zero-padded 8-hex-digit 0x string for length 4, a
zero-padded 16-hex-digit 0x string for length 8, and a plain 0x hex dump of
the sliced bytes for any other positive length. -/
def maskRender (len : Nat) (m : List Nat) : Option String :=
  if len = 0 then none
  else if len = 4 then some (format0x 8 (beNat m))
  else if len = 8 then some (format0x 16 (beNat m))
  else some ("0x" ++ bytesHex m)

theorem AppSpecLinkAttr.parseMask_eq (s : Nat) (m Y : List Nat) (htake : Y.take s = m)
    (hm : m.length = s) :
    AppSpecLinkAttr.parseMask s (Y.take s) = Except.ok (maskRender s m) := by
  unfold AppSpecLinkAttr.parseMask
  rw [htake]
  by_cases h0 : s = 0
  · subst h0
    simp [maskRender]
  · rw [if_pos (Nat.pos_of_ne_zero h0)]
    by_cases h4 : s = 4
    · subst h4
      rw [if_pos rfl, structUnpackI_ok hm, ok_map]
      simp [maskRender]
    · rw [if_neg h4]
      by_cases h8 : s = 8
      · subst h8
        rw [if_pos rfl, structUnpackQ_ok hm, ok_map]
        simp [maskRender, h0]
      · rw [if_neg h8]
        simp [maskRender, h0, h4, h8]

theorem beNat_bound : ∀ m : List Nat, (∀ b ∈ m, b < 256) →
    beNat m < 256 ^ m.length := by
  intro m
  induction m using List.reverseRecOn with
  | nil => intro _; simp [beNat]
  | append_singleton l b ih =>
    intro h
    have hb : b < 256 := h b (by simp)
    have hl : beNat l < 256 ^ l.length := ih (fun x hx => h x (by simp [hx]))
    rw [beNat_append_byte]
    simp only [List.length_append, List.length_cons, List.length_nil]
    calc 256 * beNat l + b < 256 * beNat l + 256 := by omega
      _ = 256 * (beNat l + 1) := by ring
      _ ≤ 256 * 256 ^ l.length := by
        have : beNat l + 1 ≤ 256 ^ l.length := hl
        omega
      _ = 256 ^ (l.length + (0 + 1)) := by ring

theorem hexDigits_length_le : ∀ k n : Nat, n < 16 ^ k → 1 ≤ k →
    (hexDigits n).length ≤ k := by
  intro k
  induction k with
  | zero => intro n _ hk; omega
  | succ k ih =>
    intro n hn _
    rw [hexDigits_eq]
    by_cases h16 : n < 16
    · simp only [if_pos h16, List.length_cons, List.length_nil]
      omega
    · rw [if_neg h16]
      have hk1 : 1 ≤ k := by
        by_contra hc
        have : k = 0 := by omega
        subst this
        simp [pow_succ, pow_zero] at hn
        omega
      have hdiv : n / 16 < 16 ^ k := by
        rw [Nat.div_lt_iff_lt_mul (by norm_num : 0 < 16)]
        calc n < 16 ^ (k + 1) := hn
          _ = 16 ^ k * 16 := by ring
      have := ih (n / 16) hdiv hk1
      simp only [List.length_append, List.length_cons, List.length_nil]
      omega

theorem string_length_mk (cs : List Char) : (String.mk cs).length = cs.length := rfl

theorem padZeros_length {w : Nat} {s : String} (h : s.length ≤ w) :
    (padZeros w s).length = w := by
  simp only [padZeros, String.length_append, string_length_mk, List.length_replicate]
  omega

theorem format0x_length {w n : Nat} (h : (hexDigits n).length ≤ w) :
    (format0x w n).length = 2 + w := by
  simp only [format0x, String.length_append]
  rw [padZeros_length]
  · rfl
  · simpa [hexRepr, string_length_mk] using h

/-- C7: `AppSpecLinkAttr.unpack` returns the mapping of sabm length and
value, udabm length and value, and sub-TLV sequence, in which each mask value
follows `maskRender`: null at declared length 0, a zero-padded 8-hex-digit 0x
string at declared length 4 (10 characters with the 0x prefix), a zero-padded
16-hex-digit 0x string at declared length 8 (18 characters with the prefix),
and a plain 0x hex dump of exactly the bytes present at any other positive
length; the header-only input 00 00 00 00 decodes to zero lengths, null
values and an empty sub-TLV sequence. -/
theorem asla_unpack_output_shape :
    (∀ (reg : Registry) (s u r2 r3 : Nat) (m1 m2 rest : List Nat) (subs : List TlvDict),
      m1.length = s → m2.length = u →
      aslaSubTlvWalk reg rest = Except.ok subs →
      AppSpecLinkAttr.unpack reg (s :: u :: r2 :: r3 :: (m1 ++ (m2 ++ rest)))
        = Except.ok ⟨s, maskRender s m1, u, maskRender u m2, subs⟩)
    ∧ (∀ m : List Nat, (∀ b ∈ m, b < 256) → m.length = 4 →
        maskRender 4 m = some (format0x 8 (beNat m))
        ∧ (format0x 8 (beNat m)).length = 10)
    ∧ (∀ m : List Nat, (∀ b ∈ m, b < 256) → m.length = 8 →
        maskRender 8 m = some (format0x 16 (beNat m))
        ∧ (format0x 16 (beNat m)).length = 18)
    ∧ (∀ s : Nat, s ≠ 0 → s ≠ 4 → s ≠ 8 → ∀ m : List Nat,
        maskRender s m = some ("0x" ++ bytesHex m))
    ∧ maskRender 0 [] = none
    ∧ (∀ reg : Registry,
        AppSpecLinkAttr.unpack reg [0, 0, 0, 0] = Except.ok ⟨0, none, 0, none, []⟩) := by
  refine ⟨?_, ?_, ?_, ?_, rfl, fun reg => rfl⟩
  · intro reg s u r2 r3 m1 m2 rest subs hm1 hm2 hW
    have htake1 : (m1 ++ (m2 ++ rest)).take s = m1 := List.take_left' hm1
    have hdropA : (s :: u :: r2 :: r3 :: (m1 ++ (m2 ++ rest))).drop (4 + s)
        = m2 ++ rest := by
      rw [← List.drop_drop]
      exact List.drop_left' hm1
    have hdropB : (s :: u :: r2 :: r3 :: (m1 ++ (m2 ++ rest))).drop (4 + s + u)
        = rest := by
      rw [← List.drop_drop, hdropA]
      exact List.drop_left' hm2
    have hb1 := AppSpecLinkAttr.parseMask_eq s m1 (m1 ++ (m2 ++ rest)) htake1 hm1
    have hb2 := AppSpecLinkAttr.parseMask_eq u m2
      ((s :: u :: r2 :: r3 :: (m1 ++ (m2 ++ rest))).drop (4 + s))
      (by rw [hdropA]; exact List.take_left' hm2) hm2
    simp only [AppSpecLinkAttr.unpack, pyIndex, List.getElem?_cons_zero,
      List.getElem?_cons_succ, ok_bind, List.drop_succ_cons, List.drop_zero]
    rw [hb1, ok_bind, hb2, ok_bind, hdropB, hW, ok_bind]
  · intro m hb hm
    refine ⟨by simp [maskRender], ?_⟩
    have hlt : beNat m < 16 ^ 8 := by
      have := beNat_bound m hb
      rw [hm] at this
      calc beNat m < 256 ^ 4 := this
        _ = 16 ^ 8 := by norm_num
    have := hexDigits_length_le 8 (beNat m) hlt (by omega)
    rw [format0x_length this]
  · intro m hb hm
    refine ⟨by simp [maskRender], ?_⟩
    have hlt : beNat m < 16 ^ 16 := by
      have := beNat_bound m hb
      rw [hm] at this
      calc beNat m < 256 ^ 8 := this
        _ = 16 ^ 16 := by norm_num
    have := hexDigits_length_le 16 (beNat m) hlt (by omega)
    rw [format0x_length this]
  · intro s h0 h4 h8 m
    simp [maskRender, h0, h4, h8]

/-- C7 (witness): the output-shape law evaluated on a buffer with a 4-byte
SABM 10 00 00 00, an 8-byte UDABM and one trailing unknown sub-TLV, plus the
mask rendering facts at concrete masks and the header-only literal. -/
theorem asla_unpack_output_shape_witness :
    AppSpecLinkAttr.unpack leafRegistry
        (4 :: 8 :: 0 :: 0 :: ([16, 0, 0, 0] ++ ([0, 0, 0, 0, 0, 0, 0, 255]
          ++ [255, 255, 0, 0])))
      = Except.ok ⟨4, maskRender 4 [16, 0, 0, 0], 8,
          maskRender 8 [0, 0, 0, 0, 0, 0, 0, 255],
          [TlvDict.fallback 65535 (pyBytesStr "")]⟩
    ∧ (maskRender 4 [16, 0, 0, 0] = some (format0x 8 (beNat [16, 0, 0, 0]))
      ∧ (format0x 8 (beNat [16, 0, 0, 0])).length = 10)
    ∧ (maskRender 8 [0, 0, 0, 0, 0, 0, 0, 255]
        = some (format0x 16 (beNat [0, 0, 0, 0, 0, 0, 0, 255]))
      ∧ (format0x 16 (beNat [0, 0, 0, 0, 0, 0, 0, 255])).length = 18)
    ∧ maskRender 3 [222, 173] = some ("0x" ++ bytesHex [222, 173])
    ∧ AppSpecLinkAttr.unpack leafRegistry [0, 0, 0, 0]
      = Except.ok ⟨0, none, 0, none, []⟩ :=
  ⟨asla_unpack_output_shape.1 leafRegistry 4 8 0 0 [16, 0, 0, 0]
      [0, 0, 0, 0, 0, 0, 0, 255] [255, 255, 0, 0]
      [TlvDict.fallback 65535 (pyBytesStr "")] (by decide) (by decide) (by decide),
    asla_unpack_output_shape.2.1 [16, 0, 0, 0] (by decide) (by decide),
    asla_unpack_output_shape.2.2.1 [0, 0, 0, 0, 0, 0, 0, 255] (by decide) (by decide),
    asla_unpack_output_shape.2.2.2.1 3 (by decide) (by decide) (by decide) [222, 173],
    asla_unpack_output_shape.2.2.2.2.2 leafRegistry⟩

/-- C2 (witness): the amended truncation behavior evaluated at concrete
buffers: a declared 4-byte SABM with 2 bytes present, a declared 8-byte SABM
with 4 bytes present, the declared 8-byte UDABM fixture of the unit tests,
and a declared 3-byte SABM with 2 bytes present that silently truncates. -/
theorem asla_unpack_truncation_witness :
    AppSpecLinkAttr.unpack leafRegistry (4 :: 0 :: [222, 173])
      = Except.error PyErr.structError
    ∧ AppSpecLinkAttr.unpack leafRegistry (8 :: 0 :: [0, 0, 18, 52, 86, 120])
      = Except.error PyErr.structError
    ∧ AppSpecLinkAttr.unpack leafRegistry (0 :: 8 :: [0, 0, 18, 52, 86, 120])
      = Except.error PyErr.structError
    ∧ AppSpecLinkAttr.unpack leafRegistry (3 :: 0 :: 0 :: 0 :: [222, 173])
      = Except.ok ⟨3, some ("0x" ++ bytesHex [222, 173]), 0, none, []⟩ :=
  ⟨(asla_unpack_truncation leafRegistry).2.2.1 0 [222, 173] (by decide),
    (asla_unpack_truncation leafRegistry).2.2.2.1 0 [0, 0, 18, 52, 86, 120] (by decide),
    (asla_unpack_truncation leafRegistry).2.2.2.2.1 [0, 0, 18, 52, 86, 120] (by decide),
    (asla_unpack_truncation leafRegistry).2.2.2.2.2.1 3 0 0 [222, 173]
      (by decide) (by decide) (by decide) (by decide)⟩
